import Mathlib

/-!
# Shift scheduling engine — shallow embedding

Embedding of the shift scheduling engine of the Police-Project repository
(`src/Backend/src/3-models/shift-model.ts` and
`src/Backend/src/5-controllers/shift-controller.ts`, which contains both the
HTTP controller `ShiftController` and the business-logic class `ShiftService`).

Modelling choices:
* Mongo `ObjectId` values are modelled as `Nat`; `ObjectId.equals` is `=`.
* `Date` timestamps (`registeredAt`, compared via `getTime()`) are `Nat`
  epoch milliseconds.
* A thrown `Error(msg)` is `Except.error msg`; a successful, persisted
  result is `Except.ok shift`.  `findById` returning a document or `null`
  is an `Option Shift` argument to the `...Svc` wrappers.
* JavaScript's in-place stable `Array.prototype.sort` with comparator
  `a.registeredAt.getTime() - b.registeredAt.getTime()` is modelled by the
  stable `List.insertionSort` on the `≤` relation of `registeredAt`.
* The persisted state after a call is the returned shift on success and the
  unchanged stored shift on failure (the service mutates only an in-memory
  document and calls `save` once, at the end of a successful transition).
-/

namespace PoliceShifts

/-- A member of a shift's main list (`registeredVolunteers` entry in
`shift-model.ts`). -/
structure Registration where
  userId : Nat
  volunteerType : String
  arrivalTime : String
  leavingTime : String
  note : Option String
  approved : Bool
  waitlist : Bool
deriving DecidableEq, Repr

/-- A member of a shift's waitlist (`waitlistVolunteers` entry in
`shift-model.ts`). -/
structure WaitlistEntry where
  userId : Nat
  volunteerType : String
  registeredAt : Nat
deriving DecidableEq, Repr

/-- The `Shift` document fields touched by the scheduling engine
(`shift-model.ts`).  `status` is one of `"open" | "published" | "locked"`. -/
structure Shift where
  requiredVolunteers : Nat
  registeredVolunteers : List Registration
  waitlistVolunteers : List WaitlistEntry
  status : String
  shiftNote : Option String := none
  sharedNote : Option String := none
deriving DecidableEq, Repr

/-- `shift.registeredVolunteers.some(r => r.userId.equals(uid))`. -/
def memMain (s : Shift) (u : Nat) : Bool :=
  s.registeredVolunteers.any (fun r => r.userId == u)

/-- `shift.waitlistVolunteers.some(w => w.userId.equals(uid))`. -/
def memWait (s : Shift) (u : Nat) : Bool :=
  s.waitlistVolunteers.any (fun w => w.userId == u)

/-- `shift.registeredVolunteers.filter(r => !r.waitlist).length` — the count
used by `ShiftService.register` to decide main list vs waitlist. -/
def mainCount (s : Shift) : Nat :=
  (s.registeredVolunteers.filter (fun r => !r.waitlist)).length

/-- `ShiftService.register` on an already-loaded shift document
(`shift-controller.ts`, service part).  `now` models `new Date()`. -/
def register (s : Shift) (userId : Nat) (volunteerType arrivalTime leavingTime : String)
    (note : Option String) (now : Nat) : Except String Shift :=
  if s.status = "locked" then .error "Shift is locked"
  else if ¬ (s.status = "open" ∨ s.status = "published") then
    .error "Shift not open for registration"
  else if memMain s userId || memWait s userId then
    .error "Already registered (or waitlisted)"
  else if mainCount s < s.requiredVolunteers then
    .ok { s with registeredVolunteers :=
            s.registeredVolunteers ++
              [⟨userId, volunteerType, arrivalTime, leavingTime, note, false, false⟩] }
  else
    .ok { s with waitlistVolunteers :=
            s.waitlistVolunteers ++ [⟨userId, volunteerType, now⟩] }

/-- `ShiftService.register` including the `findById` lookup. -/
def registerSvc (os : Option Shift) (userId : Nat)
    (volunteerType arrivalTime leavingTime : String) (note : Option String)
    (now : Nat) : Except String Shift :=
  match os with
  | none => .error "Shift not found"
  | some s => register s userId volunteerType arrivalTime leavingTime note now

/-- The stable in-place sort of the waitlist by ascending `registeredAt`
performed by `ShiftService.unregister`. -/
def sortWaitlist (l : List WaitlistEntry) : List WaitlistEntry :=
  List.insertionSort (fun a b => a.registeredAt ≤ b.registeredAt) l

/-- The main-list record pushed for a promoted waitlist entry
(`ShiftService.unregister`, promotion branch). -/
def promoteReg (w : WaitlistEntry) : Registration :=
  ⟨w.userId, w.volunteerType, "00:00", "00:00", none, false, false⟩

/-- Tail of `ShiftService.unregister` after the optional promotion:
`main2`/`wait2` are the in-memory lists at the point where `beforeWait` is
read; the final length comparison against the original main-list length and
against `wait2` decides between the throw and the save. -/
def finishUnreg (s : Shift) (u : Nat) (main2 : List Registration)
    (wait2 : List WaitlistEntry) : Except String Shift :=
  if main2.length = s.registeredVolunteers.length ∧
      (wait2.filter (fun w => !(w.userId == u))).length = wait2.length then
    .error "User was not registered or waitlisted"
  else
    .ok { s with registeredVolunteers := main2,
                 waitlistVolunteers := wait2.filter (fun w => !(w.userId == u)) }

/-- `ShiftService.unregister` on an already-loaded shift document. -/
def unregister (s : Shift) (u : Nat) : Except String Shift :=
  if (s.registeredVolunteers.filter (fun r => !(r.userId == u))).length <
      s.registeredVolunteers.length ∧ 0 < s.waitlistVolunteers.length then
    match sortWaitlist s.waitlistVolunteers with
    | [] =>
        finishUnreg s u (s.registeredVolunteers.filter (fun r => !(r.userId == u))) []
    | p :: rest =>
        finishUnreg s u
          (s.registeredVolunteers.filter (fun r => !(r.userId == u)) ++ [promoteReg p])
          rest
  else
    finishUnreg s u (s.registeredVolunteers.filter (fun r => !(r.userId == u)))
      s.waitlistVolunteers

/-- `ShiftService.unregister` including the `findById` lookup. -/
def unregisterSvc (os : Option Shift) (u : Nat) : Except String Shift :=
  match os with
  | none => .error "Shift not found"
  | some s => unregister s u

/-- `rec.approved = approve` on the first main-list record found by
`registeredVolunteers.find(r => r.userId.equals(vid))`. -/
def setApprovedFirst : List Registration → Nat → Bool → List Registration
  | [], _, _ => []
  | r :: rs, vid, b =>
      if r.userId = vid then { r with approved := b } :: rs
      else r :: setApprovedFirst rs vid b

/-- `ShiftService.approve` on an already-loaded shift document. -/
def approve (s : Shift) (vid : Nat) (b : Bool) : Except String Shift :=
  if s.registeredVolunteers.any (fun r => r.userId == vid) then
    .ok { s with registeredVolunteers := setApprovedFirst s.registeredVolunteers vid b }
  else .error "Volunteer not found in main registrations"

/-- `ShiftService.approve` including the `findById` lookup. -/
def approveSvc (os : Option Shift) (vid : Nat) (b : Bool) : Except String Shift :=
  match os with
  | none => .error "Shift not found"
  | some s => approve s vid b

/-- The result object of `ShiftService.statusIndicator`. -/
structure StatusIndicator where
  color : String
  pendingIcon : Bool
  approved : Nat
  total : Nat
  required : Nat
  waitlisted : Nat
  status : String
deriving DecidableEq, Repr

/-- `shift.registeredVolunteers.filter(r => r.approved).length` in
`ShiftService.statusIndicator`. -/
def approvedCount (s : Shift) : Nat :=
  (s.registeredVolunteers.filter (fun r => r.approved)).length

/-- The color decision of `ShiftService.statusIndicator`, tried in the
code's order: gray, blue, green, orange. -/
def indicatorColor (s : Shift) : String :=
  if s.registeredVolunteers.length = 0 then "gray"
  else if s.requiredVolunteers ≤ approvedCount s ∧ 0 < s.waitlistVolunteers.length then
    "blue"
  else if s.requiredVolunteers ≤ approvedCount s then "green"
  else "orange"

/-- `ShiftService.statusIndicator` on an already-loaded shift document. -/
def statusIndicator (s : Shift) : StatusIndicator :=
  ⟨indicatorColor s, s.registeredVolunteers.any (fun r => !r.approved),
    approvedCount s, s.registeredVolunteers.length, s.requiredVolunteers,
    s.waitlistVolunteers.length, s.status⟩

/-- JavaScript's `<` on strings: lexicographic comparison of the character
sequences (for the `HH:MM` strings at hand, code units and code points
coincide).  `ShiftController.register` rejects when `arrivalTime >=
leavingTime`, i.e. when this is `false`. -/
def strLtb : List Char → List Char → Bool
  | [], [] => false
  | [], _ :: _ => true
  | _ :: _, [] => false
  | a :: as, b :: bs => if a < b then true else if b < a then false else strLtb as bs

/-- The `^([01]\d|2[0-3]):[0-5]\d$` test in `ShiftController.register`. -/
def isHHMM (t : String) : Bool :=
  match t.data with
  | [h1, h2, c, m1, m2] =>
      ((h1 == '0' || h1 == '1') && h2.isDigit || h1 == '2' && '0' ≤ h2 && h2 ≤ '3') &&
        c == ':' && ('0' ≤ m1 && m1 ≤ '5') && m2.isDigit
  | _ => false

/-- `ShiftController.register`: required-field and time-format validation in
front of the service call (empty strings model missing/falsy body fields). -/
def controllerRegister (os : Option Shift) (userId : Nat)
    (volunteerType arrivalTime leavingTime : String) (note : Option String)
    (now : Nat) : Except String Shift :=
  if volunteerType = "" ∨ arrivalTime = "" ∨ leavingTime = "" then
    .error "volunteerType, arrivalTime and leavingTime are required."
  else if ¬ (isHHMM arrivalTime && isHHMM leavingTime) = true then
    .error "arrivalTime/leavingTime must be HH:MM"
  else if strLtb arrivalTime.data leavingTime.data = false then
    .error "leavingTime must be after arrivalTime"
  else registerSvc os userId volunteerType arrivalTime leavingTime note now

/-- `String(req.query.approve ?? "true") === "true"` in
`ShiftController.approve`. -/
def approveQueryFlag (param : Option String) : Bool :=
  param.getD "true" == "true"

/-- `ShiftController.approve`: query-parameter parsing in front of the
service call. -/
def controllerApprove (os : Option Shift) (vid : Nat) (param : Option String) :
    Except String Shift :=
  approveSvc os vid (approveQueryFlag param)

/-- Persisted state after a service call on stored shift `s`: the document is
saved only on success, so a thrown error leaves the store unchanged. -/
def persisted (s : Shift) (r : Except String Shift) : Shift :=
  match r with
  | .ok s' => s'
  | .error _ => s

/-- Invariant 2 of the spec's data model: each `userId` appears at most once
in the main list, at most once in the waitlist, and never in both. -/
def Inv (s : Shift) : Prop :=
  (s.registeredVolunteers.map (fun r => r.userId)).Nodup ∧
  (s.waitlistVolunteers.map (fun w => w.userId)).Nodup ∧
  ∀ u ∈ s.registeredVolunteers.map (fun r => r.userId),
    u ∉ s.waitlistVolunteers.map (fun w => w.userId)

/-- One volunteer-registration request (the arguments of one
`ShiftService.register` call). -/
structure RegCall where
  userId : Nat
  volunteerType : String
  arrivalTime : String
  leavingTime : String
  note : Option String
  now : Nat
deriving DecidableEq, Repr

/-- `ShiftService.register` applied to one request record. -/
def registerCall (s : Shift) (c : RegCall) : Except String Shift :=
  register s c.userId c.volunteerType c.arrivalTime c.leavingTime c.note c.now

/-- The main-list record a successful main-list registration appends. -/
def newMainReg (c : RegCall) : Registration :=
  ⟨c.userId, c.volunteerType, c.arrivalTime, c.leavingTime, c.note, false, false⟩

/-- The waitlist record a successful waitlist registration appends. -/
def newWaitEntry (c : RegCall) : WaitlistEntry :=
  ⟨c.userId, c.volunteerType, c.now⟩

/-- A sequence of `ShiftService.register` calls, each on the shift persisted
by the previous one, stopping at the first failure. -/
def registerSeq : Shift → List RegCall → Except String Shift
  | s, [] => .ok s
  | s, c :: cs =>
      match registerCall s c with
      | .ok s' => registerSeq s' cs
      | .error e => .error e

/-! ## Concrete shifts used as test inputs -/

/-- The spec's promotion scenario: capacity 1, user 1 on the main list with
times 08:00–14:00, user 2 waitlisted. -/
def shiftC1 : Shift :=
  { requiredVolunteers := 1,
    registeredVolunteers := [⟨1, "שלב א", "08:00", "14:00", none, false, false⟩],
    waitlistVolunteers := [⟨2, "שלב א", 100⟩],
    status := "open" }

/-- Capacity 3, user 5 registered (approved), user 6 waitlisted. -/
def shiftC2 : Shift :=
  { requiredVolunteers := 3,
    registeredVolunteers := [⟨5, "שלב ב", "10:00", "12:00", none, true, false⟩],
    waitlistVolunteers := [⟨6, "שלב ב", 42⟩],
    status := "published" }

/-- An empty open shift of capacity 1, and a request that fills it. -/
def shiftC3 : Shift :=
  { requiredVolunteers := 1, registeredVolunteers := [],
    waitlistVolunteers := [], status := "open" }

/-- A registration request for `shiftC3`. -/
def callC3 : RegCall := ⟨4, "שלב א", "08:00", "14:00", none, 10⟩

/-- The shift `shiftC3` after `callC3` succeeds. -/
def shiftC3' : Shift :=
  { shiftC3 with registeredVolunteers := [newMainReg callC3] }

/-- An empty open shift of capacity 2. -/
def shiftC4 : Shift :=
  { requiredVolunteers := 2, registeredVolunteers := [],
    waitlistVolunteers := [], status := "open" }

/-- A locked shift with user 9 already on the main list. -/
def shiftC5 : Shift :=
  { requiredVolunteers := 2,
    registeredVolunteers := [⟨9, "שלב א", "08:00", "12:00", none, true, false⟩],
    waitlistVolunteers := [], status := "locked" }

/-- An open shift with user 9 already on the main list. -/
def shiftC5w : Shift :=
  { requiredVolunteers := 2,
    registeredVolunteers := [⟨9, "שלב א", "08:00", "12:00", none, false, false⟩],
    waitlistVolunteers := [], status := "open" }

/-- A locked shift with one approved registration. -/
def shiftC6 : Shift :=
  { requiredVolunteers := 1,
    registeredVolunteers := [⟨2, "שלב ב", "09:00", "13:00", none, true, false⟩],
    waitlistVolunteers := [], status := "locked" }

/-- An open shift satisfying the membership invariant: users 1 and 2
registered, user 3 waitlisted. -/
def shiftC8 : Shift :=
  { requiredVolunteers := 2,
    registeredVolunteers :=
      [⟨1, "שלב א", "08:00", "14:00", none, true, false⟩,
       ⟨2, "שלב ב", "09:00", "13:00", none, false, false⟩],
    waitlistVolunteers := [⟨3, "שלב א", 7⟩],
    status := "open" }

/-- The single main-list registration of `shiftC9`. -/
def regC9 : Registration := ⟨9, "שלב א", "08:00", "12:00", none, false, false⟩

/-- An open shift with user 9 on the main list, not yet approved. -/
def shiftC9 : Shift :=
  { requiredVolunteers := 1, registeredVolunteers := [regC9],
    waitlistVolunteers := [], status := "open" }

/-- The single main-list registration of `shiftC10`. -/
def regC10 : Registration := ⟨3, "שלב ב", "10:00", "16:00", none, true, false⟩

/-- An open shift with user 3 on the main list, currently approved. -/
def shiftC10 : Shift :=
  { requiredVolunteers := 1, registeredVolunteers := [regC10],
    waitlistVolunteers := [], status := "published" }

/-! ## Helper lemmas -/

theorem filter_ne_eq_self {α : Type} (f : α → Nat) (u : Nat) (l : List α)
    (h : u ∉ l.map f) : l.filter (fun x => !(f x == u)) = l := by
  rw [List.filter_eq_self]
  intro a ha
  simp only [Bool.not_eq_eq_eq_not, Bool.not_true, beq_eq_false_iff_ne, ne_eq]
  intro hfa
  exact h (List.mem_map.mpr ⟨a, ha, hfa⟩)

theorem length_filter_ne_of_nodup {α : Type} (f : α → Nat) (u : Nat) :
    ∀ l : List α, (l.map f).Nodup → u ∈ l.map f →
      (l.filter (fun x => !(f x == u))).length + 1 = l.length := by
  intro l
  induction l with
  | nil => intro _ hm; simp at hm
  | cons a t ih =>
      intro hnd hm
      simp only [List.map_cons, List.nodup_cons] at hnd
      have hm' : u = f a ∨ u ∈ t.map f := by
        simpa [List.mem_cons] using hm
      rcases hm' with hau | hut
      · have hfa : (!(f a == u)) = false := by simp [hau]
        have ht : t.filter (fun x => !(f x == u)) = t := by
          apply filter_ne_eq_self
          rw [hau]
          exact hnd.1
        simp [List.filter_cons, hfa, ht]
      · have hne : f a ≠ u := by
          intro hfa
          exact hnd.1 (hfa ▸ hut)
        have hfa : (!(f a == u)) = true := by simp [hne]
        simp only [List.filter_cons, hfa, if_true, List.length_cons]
        rw [← ih hnd.2 hut]

theorem length_filter_ne_lt {α : Type} (f : α → Nat) (u : Nat) :
    ∀ l : List α, u ∈ l.map f →
      (l.filter (fun x => !(f x == u))).length < l.length := by
  intro l
  induction l with
  | nil => intro hm; simp at hm
  | cons a t ih =>
      intro hm
      by_cases hau : f a = u
      · have hfa : (!(f a == u)) = false := by simp [hau]
        simp only [List.filter_cons, hfa, if_false, List.length_cons]
        exact Nat.lt_succ_of_le (List.length_filter_le _ t)
      · have hm' : u = f a ∨ u ∈ t.map f := by
          simpa [List.mem_cons] using hm
        have hut : u ∈ t.map f := by
          rcases hm' with h | h
          · exact absurd h.symm hau
          · exact h
        have hfa : (!(f a == u)) = true := by simp [hau]
        simp only [List.filter_cons, hfa, if_true, List.length_cons]
        exact Nat.succ_lt_succ (ih hut)

theorem memMain_iff (s : Shift) (u : Nat) :
    memMain s u = true ↔ u ∈ s.registeredVolunteers.map (fun r => r.userId) := by
  simp [memMain, List.any_eq_true, List.mem_map]

theorem memWait_iff (s : Shift) (u : Nat) :
    memWait s u = true ↔ u ∈ s.waitlistVolunteers.map (fun w => w.userId) := by
  simp [memWait, List.any_eq_true, List.mem_map]

theorem sortWaitlist_length (l : List WaitlistEntry) :
    (sortWaitlist l).length = l.length :=
  List.length_insertionSort _ l

theorem mem_sortWaitlist {l : List WaitlistEntry} {w : WaitlistEntry} :
    w ∈ sortWaitlist l ↔ w ∈ l :=
  List.mem_insertionSort _

theorem register_ok_cases {s : Shift} {c : RegCall} {s' : Shift}
    (h : registerCall s c = .ok s') :
    (s.status = "open" ∨ s.status = "published") ∧
    memMain s c.userId = false ∧ memWait s c.userId = false ∧
    ((mainCount s < s.requiredVolunteers ∧
        s' = { s with registeredVolunteers := s.registeredVolunteers ++ [newMainReg c] }) ∨
     (s.requiredVolunteers ≤ mainCount s ∧
        s' = { s with waitlistVolunteers := s.waitlistVolunteers ++ [newWaitEntry c] })) := by
  unfold registerCall register at h
  split at h
  · exact absurd h (by simp)
  split at h
  · exact absurd h (by simp)
  split at h
  · exact absurd h (by simp)
  next hopen hdup =>
    have hdup' : memMain s c.userId = false ∧ memWait s c.userId = false := by
      constructor <;> simp_all
    refine ⟨not_not.mp hopen, hdup'.1, hdup'.2, ?_⟩
    split at h
    · next hlt =>
        exact Or.inl ⟨hlt, ((Except.ok.injEq _ _).mp h).symm⟩
    · next hge =>
        exact Or.inr ⟨Nat.le_of_not_lt hge, ((Except.ok.injEq _ _).mp h).symm⟩

theorem register_preserves_required {s : Shift} {c : RegCall} {s' : Shift}
    (h : registerCall s c = .ok s') :
    s'.requiredVolunteers = s.requiredVolunteers := by
  rcases (register_ok_cases h).2.2.2 with ⟨_, hs⟩ | ⟨_, hs⟩ <;> rw [hs]

theorem mainCount_after {s : Shift} {c : RegCall} {s' : Shift}
    (h : registerCall s c = .ok s') :
    (mainCount s' = mainCount s + 1 ∧ mainCount s < s.requiredVolunteers) ∨
    (mainCount s' = mainCount s ∧ s.requiredVolunteers ≤ mainCount s) := by
  rcases (register_ok_cases h).2.2.2 with ⟨hlt, hs⟩ | ⟨hge, hs⟩
  · left
    refine ⟨?_, hlt⟩
    rw [hs]
    simp [mainCount, List.filter_append, newMainReg]
  · right
    refine ⟨?_, hge⟩
    rw [hs]
    simp [mainCount]

theorem registerSeq_mainCount : ∀ (cs : List RegCall) (s s' : Shift),
    registerSeq s cs = .ok s' →
    s'.requiredVolunteers = s.requiredVolunteers ∧
    mainCount s ≤ mainCount s' ∧
    min (mainCount s + cs.length) s.requiredVolunteers ≤ mainCount s' := by
  intro cs
  induction cs with
  | nil =>
      intro s s' h
      simp only [registerSeq, Except.ok.injEq] at h
      subst h
      refine ⟨rfl, Nat.le_refl _, ?_⟩
      simp
  | cons c cs ih =>
      intro s s' h
      cases hc : registerCall s c with
      | error e => simp [registerSeq, hc] at h
      | ok s1 =>
          simp only [registerSeq, hc] at h
          obtain ⟨hreq, hmono, hmin⟩ := ih s1 s' h
          have hreq1 := register_preserves_required hc
          rw [hreq1] at hreq hmin
          have hlen : (c :: cs).length = cs.length + 1 := rfl
          rcases mainCount_after hc with ⟨he, _⟩ | ⟨he, hge⟩
          · refine ⟨hreq, ?_, ?_⟩ <;> omega
          · refine ⟨hreq, ?_, ?_⟩ <;> omega

theorem finishUnreg_error {s : Shift} {u : Nat} {main2 : List Registration}
    {wait2 : List WaitlistEntry}
    (h1 : main2.length = s.registeredVolunteers.length)
    (h2 : u ∉ wait2.map (fun w => w.userId)) :
    finishUnreg s u main2 wait2 = .error "User was not registered or waitlisted" := by
  unfold finishUnreg
  rw [filter_ne_eq_self (fun w => w.userId) u wait2 h2, if_pos ⟨h1, rfl⟩]

/-- `unregister` for a user on the main list while the waitlist is non-empty:
the promotion restores the main list's length and `beforeWait` is read after
the splice, so the final length check always reports "nothing changed" and
the call throws. -/
theorem unregister_in_main_wait_nonempty {s : Shift} {u : Nat}
    (hnd : (s.registeredVolunteers.map (fun r => r.userId)).Nodup)
    (hm : u ∈ s.registeredVolunteers.map (fun r => r.userId))
    (hw : u ∉ s.waitlistVolunteers.map (fun w => w.userId))
    (hne : 0 < s.waitlistVolunteers.length) :
    unregister s u = .error "User was not registered or waitlisted" := by
  unfold unregister
  rw [if_pos ⟨length_filter_ne_lt (fun r : Registration => r.userId) u _ hm, hne⟩]
  cases hsort : sortWaitlist s.waitlistVolunteers with
  | nil =>
      have := sortWaitlist_length s.waitlistVolunteers
      rw [hsort] at this
      simp at this
      omega
  | cons p rest =>
      apply finishUnreg_error
      · rw [List.length_append, List.length_singleton,
          length_filter_ne_of_nodup (fun r : Registration => r.userId) u _ hnd hm]
      · intro hmem
        apply hw
        rcases List.mem_map.mp hmem with ⟨w, hwrest, hwid⟩
        have hwsort : w ∈ sortWaitlist s.waitlistVolunteers := by
          rw [hsort]
          exact List.mem_cons_of_mem p hwrest
        exact List.mem_map.mpr ⟨w, mem_sortWaitlist.mp hwsort, hwid⟩

/-- `unregister` for a user on the main list while the waitlist is empty:
the entry is removed and the call succeeds. -/
theorem unregister_in_main_wait_empty {s : Shift} {u : Nat}
    (hm : u ∈ s.registeredVolunteers.map (fun r => r.userId))
    (hwe : s.waitlistVolunteers = []) :
    unregister s u =
      .ok { s with registeredVolunteers :=
                     s.registeredVolunteers.filter (fun r => !(r.userId == u)),
                   waitlistVolunteers := [] } := by
  have hlt := length_filter_ne_lt (fun r : Registration => r.userId) u _ hm
  unfold unregister finishUnreg
  rw [hwe]
  rw [if_neg (by simp)]
  rw [if_neg (by intro hc; exact absurd hc.1 (Nat.ne_of_lt hlt))]
  simp

/-- `unregister` for a user only on the waitlist: the waitlist entry is
removed and the call succeeds. -/
theorem unregister_wait_only {s : Shift} {u : Nat}
    (hm : u ∉ s.registeredVolunteers.map (fun r => r.userId))
    (hwm : u ∈ s.waitlistVolunteers.map (fun w => w.userId)) :
    unregister s u =
      .ok { s with registeredVolunteers := s.registeredVolunteers,
                   waitlistVolunteers :=
                     s.waitlistVolunteers.filter (fun w => !(w.userId == u)) } := by
  have hwlt := length_filter_ne_lt (fun w : WaitlistEntry => w.userId) u _ hwm
  unfold unregister finishUnreg
  rw [filter_ne_eq_self (fun r : Registration => r.userId) u _ hm]
  rw [if_neg (by simp)]
  rw [if_neg (by intro hc; exact absurd hc.2 (Nat.ne_of_lt hwlt))]

/-- `unregister` for a user on neither list throws. -/
theorem unregister_not_member {s : Shift} {u : Nat}
    (hm : u ∉ s.registeredVolunteers.map (fun r => r.userId))
    (hwm : u ∉ s.waitlistVolunteers.map (fun w => w.userId)) :
    unregister s u = .error "User was not registered or waitlisted" := by
  unfold unregister
  rw [filter_ne_eq_self (fun r : Registration => r.userId) u _ hm]
  rw [if_neg (by simp)]
  exact finishUnreg_error rfl hwm

theorem setApprovedFirst_cons_pos {r : Registration} {rs : List Registration}
    {vid : Nat} {b : Bool} (hr : r.userId = vid) :
    setApprovedFirst (r :: rs) vid b = { r with approved := b } :: rs := by
  simp [setApprovedFirst, hr]

theorem setApprovedFirst_cons_neg {r : Registration} {rs : List Registration}
    {vid : Nat} {b : Bool} (hr : r.userId ≠ vid) :
    setApprovedFirst (r :: rs) vid b = r :: setApprovedFirst rs vid b := by
  simp [setApprovedFirst, hr]

theorem setApprovedFirst_map_userId (vid : Nat) (b : Bool) :
    ∀ l : List Registration,
    (setApprovedFirst l vid b).map (fun r => r.userId) = l.map (fun r => r.userId) := by
  intro l
  induction l with
  | nil => rfl
  | cons r rs ih =>
      by_cases hr : r.userId = vid
      · rw [setApprovedFirst_cons_pos hr]
        simp
      · rw [setApprovedFirst_cons_neg hr]
        simp [ih]

theorem setApprovedFirst_decomp (vid : Nat) (b : Bool) :
    ∀ (pre : List Registration) (r : Registration) (post : List Registration),
    (∀ x ∈ pre, x.userId ≠ vid) → r.userId = vid →
    setApprovedFirst (pre ++ r :: post) vid b = pre ++ { r with approved := b } :: post := by
  intro pre
  induction pre with
  | nil =>
      intro r post _ hr
      rw [List.nil_append, List.nil_append, setApprovedFirst_cons_pos hr]
  | cons x xs ih =>
      intro r post hpre hr
      have hx : x.userId ≠ vid := hpre x (List.mem_cons_self x xs)
      rw [List.cons_append, setApprovedFirst_cons_neg hx,
        ih r post (fun y hy => hpre y (List.mem_cons_of_mem x hy)) hr, List.cons_append]

theorem setApprovedFirst_idem (vid : Nat) (b : Bool) :
    ∀ l : List Registration,
    setApprovedFirst (setApprovedFirst l vid b) vid b = setApprovedFirst l vid b := by
  intro l
  induction l with
  | nil => rfl
  | cons r rs ih =>
      by_cases hr : r.userId = vid
      · rw [setApprovedFirst_cons_pos hr,
          setApprovedFirst_cons_pos (show ({ r with approved := b } : Registration).userId = vid from hr)]
      · rw [setApprovedFirst_cons_neg hr, setApprovedFirst_cons_neg hr, ih]

theorem setApprovedFirst_any (vid : Nat) (b : Bool) :
    ∀ l : List Registration,
    (setApprovedFirst l vid b).any (fun r => r.userId == vid) =
      l.any (fun r => r.userId == vid) := by
  intro l
  induction l with
  | nil => rfl
  | cons r rs ih =>
      by_cases hr : r.userId = vid
      · rw [setApprovedFirst_cons_pos hr]
        simp [hr]
      · rw [setApprovedFirst_cons_neg hr]
        simp [hr, ih]

theorem approve_not_found {s : Shift} {vid : Nat} {b : Bool}
    (h : ∀ r ∈ s.registeredVolunteers, r.userId ≠ vid) :
    approve s vid b = .error "Volunteer not found in main registrations" := by
  unfold approve
  rw [if_neg ?_]
  intro hc
  rcases List.any_eq_true.mp hc with ⟨r, hr, hrv⟩
  exact h r hr (by simpa using hrv)

theorem approve_found {s : Shift} {vid : Nat} {b : Bool}
    {pre : List Registration} {r : Registration} {post : List Registration}
    (hdecomp : s.registeredVolunteers = pre ++ r :: post)
    (hpre : ∀ x ∈ pre, x.userId ≠ vid) (hr : r.userId = vid) :
    approve s vid b =
      .ok { s with registeredVolunteers := pre ++ { r with approved := b } :: post } := by
  unfold approve
  rw [if_pos ?_]
  · rw [hdecomp, setApprovedFirst_decomp vid b pre r post hpre hr]
  · apply List.any_eq_true.mpr
    refine ⟨r, ?_, by simpa using hr⟩
    rw [hdecomp]
    exact List.mem_append.mpr (Or.inr (List.mem_cons_self r post))

theorem approve_ok_inv {s : Shift} {vid : Nat} {b : Bool} {s' : Shift}
    (h : approve s vid b = .ok s') :
    s' = { s with registeredVolunteers := setApprovedFirst s.registeredVolunteers vid b } ∧
    s.registeredVolunteers.any (fun r => r.userId == vid) = true := by
  unfold approve at h
  by_cases hc : (s.registeredVolunteers.any fun r => r.userId == vid) = true
  · rw [if_pos hc] at h
    exact ⟨((Except.ok.injEq _ _).mp h).symm, hc⟩
  · rw [if_neg hc] at h
    exact absurd h (by simp)

theorem approve_idem {s : Shift} {vid : Nat} {b : Bool} {s' : Shift}
    (h : approve s vid b = .ok s') : approve s' vid b = .ok s' := by
  obtain ⟨hs', hc⟩ := approve_ok_inv h
  subst hs'
  unfold approve
  dsimp only
  rw [setApprovedFirst_idem vid b, setApprovedFirst_any vid b, if_pos hc]

theorem persisted_ok (s s' : Shift) : persisted s (.ok s') = s' := rfl

theorem persisted_error (s : Shift) (e : String) : persisted s (.error e) = s := rfl

theorem nodup_map_filter {α : Type} (f : α → Nat) (p : α → Bool) (l : List α)
    (h : (l.map f).Nodup) : ((l.filter p).map f).Nodup :=
  List.Nodup.sublist (List.Sublist.map f (List.filter_sublist l)) h

theorem mem_map_filter {α : Type} {f : α → Nat} {p : α → Bool} {l : List α} {x : Nat}
    (h : x ∈ (l.filter p).map f) : x ∈ l.map f := by
  rcases List.mem_map.mp h with ⟨a, ha, hfa⟩
  exact List.mem_map.mpr ⟨a, List.mem_of_mem_filter ha, hfa⟩

/-! ## Claim theorems -/

/-- Claim C1 (code bug, failing input): on the spec's own promotion scenario —
capacity 1, user 1 on the main list, user 2 waitlisted — `unregister` does not
remove user 1 and promote user 2; it throws "User was not registered or
waitlisted" and persists nothing.  The promotion push restores the main list
to its pre-call length and `beforeWait` is read only after the promoted entry
was spliced out, so the final "did anything change" length check always fires
on this path. -/
theorem unregister_promotion_scenario_throws :
    memMain shiftC1 1 = true ∧ 0 < shiftC1.waitlistVolunteers.length ∧
    unregister shiftC1 1 = .error "User was not registered or waitlisted" ∧
    persisted shiftC1 (unregister shiftC1 1) = shiftC1 :=
  ⟨rfl, by decide, rfl, rfl⟩

/-- Claim C2 (code bug, failing input): user 5 is registered on `shiftC2`
(whose waitlist is non-empty), yet `unregister` fails with "User was not
registered or waitlisted" — so the error is not equivalent to "the user was
in neither list".  The persisted shift is indeed unchanged on failure. -/
theorem unregister_error_despite_membership :
    memMain shiftC2 5 = true ∧
    unregister shiftC2 5 = .error "User was not registered or waitlisted" ∧
    persisted shiftC2 (unregister shiftC2 5) = shiftC2 :=
  ⟨rfl, rfl, rfl⟩

/-- Claim C4 (counterexample): `ShiftService.register` — the engine —
performs no time validation: called directly with the inverted interval
14:00–08:00 (both well-formed `HH:MM` strings, arrival not less than
leaving), it succeeds and appends the entry to the main list. -/
theorem service_register_accepts_inverted_interval :
    isHHMM "14:00" = true ∧ isHHMM "08:00" = true ∧
    strLtb "14:00".data "08:00".data = false ∧
    register shiftC4 7 "שלב א" "14:00" "08:00" none 0 =
      .ok { shiftC4 with registeredVolunteers :=
              [⟨7, "שלב א", "14:00", "08:00", none, false, false⟩] } :=
  ⟨rfl, rfl, rfl, rfl⟩

/-- Claim C4 (amended): the caller-facing layer `ShiftController.register`
rejects any request whose times are not `HH:MM` or whose arrival is not
strictly before leaving, before the engine is invoked, so the persisted shift
is unchanged; the engine itself does not validate times. -/
theorem controller_rejects_bad_times (os : Option Shift) (u : Nat)
    (vt arr lv : String) (note : Option String) (now : Nat)
    (h : isHHMM arr = false ∨ isHHMM lv = false ∨ strLtb arr.data lv.data = false) :
    (∃ msg, controllerRegister os u vt arr lv note now = .error msg) ∧
    ∀ s : Shift, os = some s →
      persisted s (controllerRegister os u vt arr lv note now) = s := by
  have herr : ∃ msg, controllerRegister os u vt arr lv note now = .error msg := by
    unfold controllerRegister
    split
    · exact ⟨_, rfl⟩
    split
    · exact ⟨_, rfl⟩
    next hfmt =>
      split
      · exact ⟨_, rfl⟩
      next hlt =>
        exfalso
        rcases h with h | h | h
        · simp [h] at hfmt
        · simp [h] at hfmt
        · exact hlt h
  refine ⟨herr, ?_⟩
  intro s _
  rcases herr with ⟨msg, hmsg⟩
  rw [hmsg]
  rfl

/-- Witness for `controller_rejects_bad_times` at the spec's scenario
`arrivalTime="14:00", leavingTime="08:00"`. -/
theorem controller_rejects_bad_times_witness :
    persisted shiftC4 (controllerRegister (some shiftC4) 7 "שלב א" "14:00" "08:00" none 0) =
      shiftC4 :=
  (controller_rejects_bad_times (some shiftC4) 7 "שלב א" "14:00" "08:00" none 0
    (Or.inr (Or.inr rfl))).2 shiftC4 rfl

/-- Claim C5 (counterexample): on a locked shift, a duplicate registration
attempt by a user already on the main list fails with "Shift is locked" —
the status checks run before the duplicate check, so the failure is not the
Conflict error the claim promises for every shift. -/
theorem locked_duplicate_conflict_mismatch :
    memMain shiftC5 9 = true ∧
    register shiftC5 9 "שלב א" "08:00" "12:00" none 0 = .error "Shift is locked" ∧
    ("Shift is locked" : String) ≠ "Already registered (or waitlisted)" :=
  ⟨rfl, rfl, by decide⟩

/-- Claim C5 (amended): a registration attempt by a user already on the main
list or waitlist always fails and leaves the persisted shift unchanged; the
failure carries the Conflict message "Already registered (or waitlisted)"
whenever the shift's status is `open` or `published` (the status checks
precede the duplicate check, so a locked shift reports "Shift is locked"
instead). -/
theorem duplicate_register_rejected (s : Shift) (u : Nat) (vt arr lv : String)
    (note : Option String) (now : Nat)
    (h : memMain s u = true ∨ memWait s u = true) :
    (∃ msg, register s u vt arr lv note now = .error msg) ∧
    persisted s (register s u vt arr lv note now) = s ∧
    ((s.status = "open" ∨ s.status = "published") →
      register s u vt arr lv note now = .error "Already registered (or waitlisted)") := by
  have hdup : (memMain s u || memWait s u) = true := by
    rcases h with h | h <;> simp [h]
  unfold register
  by_cases hl : s.status = "locked"
  · rw [if_pos hl]
    refine ⟨⟨_, rfl⟩, rfl, ?_⟩
    intro hop
    rcases hop with hop | hop <;> rw [hop] at hl <;> exact absurd hl (by decide)
  · rw [if_neg hl]
    by_cases ho : s.status = "open" ∨ s.status = "published"
    · rw [if_neg (not_not.mpr ho), if_pos hdup]
      exact ⟨⟨_, rfl⟩, rfl, fun _ => rfl⟩
    · rw [if_pos ho]
      exact ⟨⟨_, rfl⟩, rfl, fun hop => absurd hop ho⟩

/-- Witness for `duplicate_register_rejected`: user 9 is already on the main
list of the open shift `shiftC5w`, so a second attempt fails with the
Conflict error. -/
theorem duplicate_register_rejected_witness :
    register shiftC5w 9 "שלב א" "08:00" "12:00" none 0 =
      .error "Already registered (or waitlisted)" :=
  (duplicate_register_rejected shiftC5w 9 "שלב א" "08:00" "12:00" none 0
    (Or.inl rfl)).2.2 (Or.inl rfl)

/-- Claim C6: on a shift with `status = "locked"`, every registration attempt
fails with "Shift is locked" and the persisted shift — its registrations and
approval flags included — is unchanged. -/
theorem locked_register_rejected (s : Shift) (u : Nat) (vt arr lv : String)
    (note : Option String) (now : Nat) (h : s.status = "locked") :
    register s u vt arr lv note now = .error "Shift is locked" ∧
    persisted s (register s u vt arr lv note now) = s := by
  unfold register
  rw [if_pos h]
  exact ⟨rfl, rfl⟩

/-- Witness for `locked_register_rejected` on the locked shift `shiftC6`. -/
theorem locked_register_rejected_witness :
    register shiftC6 4 "שלב א" "08:00" "12:00" none 0 = .error "Shift is locked" ∧
    persisted shiftC6 (register shiftC6 4 "שלב א" "08:00" "12:00" none 0) = shiftC6 :=
  locked_register_rejected shiftC6 4 "שלב א" "08:00" "12:00" none 0 rfl

/-- Claim C3: a successful registration appends a new main-list Registration
with `approved=false, waitlist=false` when the non-waitlisted main count is
strictly below `requiredVolunteers`, and otherwise appends a new
WaitlistEntry with `registeredAt = now`; exactly one list grows by one.
After `requiredVolunteers` sequential successful registrations, a further
successful registration lands on the waitlist and the main list is
unchanged. -/
theorem register_capacity_decision :
    (∀ (s : Shift) (c : RegCall) (s' : Shift), registerCall s c = .ok s' →
      (mainCount s < s.requiredVolunteers ∧
        s'.registeredVolunteers = s.registeredVolunteers ++ [newMainReg c] ∧
        s'.waitlistVolunteers = s.waitlistVolunteers) ∨
      (s.requiredVolunteers ≤ mainCount s ∧
        s'.waitlistVolunteers = s.waitlistVolunteers ++ [newWaitEntry c] ∧
        s'.registeredVolunteers = s.registeredVolunteers)) ∧
    (∀ (s : Shift) (cs : List RegCall) (s' : Shift) (c : RegCall) (s'' : Shift),
      registerSeq s cs = .ok s' → cs.length = s.requiredVolunteers →
      registerCall s' c = .ok s'' →
      s''.registeredVolunteers = s'.registeredVolunteers ∧
      s''.waitlistVolunteers = s'.waitlistVolunteers ++ [newWaitEntry c]) := by
  constructor
  · intro s c s' h
    rcases (register_ok_cases h).2.2.2 with ⟨hlt, hs⟩ | ⟨hge, hs⟩
    · exact Or.inl ⟨hlt, by rw [hs], by rw [hs]⟩
    · exact Or.inr ⟨hge, by rw [hs], by rw [hs]⟩
  · intro s cs s' c s'' hseq hlen h
    obtain ⟨hreq, _, hmin⟩ := registerSeq_mainCount cs s s' hseq
    have hge : s'.requiredVolunteers ≤ mainCount s' := by
      rw [hreq, hlen] at *
      omega
    rcases (register_ok_cases h).2.2.2 with ⟨hlt, _⟩ | ⟨_, hs⟩
    · omega
    · exact ⟨by rw [hs], by rw [hs]⟩

/-- Witness for `register_capacity_decision`: the empty capacity-1 shift
`shiftC3` admits `callC3` to the main list. -/
theorem register_capacity_decision_witness :
    (mainCount shiftC3 < shiftC3.requiredVolunteers ∧
      shiftC3'.registeredVolunteers = shiftC3.registeredVolunteers ++ [newMainReg callC3] ∧
      shiftC3'.waitlistVolunteers = shiftC3.waitlistVolunteers) ∨
    (shiftC3.requiredVolunteers ≤ mainCount shiftC3 ∧
      shiftC3'.waitlistVolunteers = shiftC3.waitlistVolunteers ++ [newWaitEntry callC3] ∧
      shiftC3'.registeredVolunteers = shiftC3.registeredVolunteers) :=
  register_capacity_decision.1 shiftC3 callC3 shiftC3' rfl

/-- Claim C9: `approve` fails with "Shift not found" when the shift does not
resolve and with "Volunteer not found in main registrations" when the
volunteer is not on the main list; otherwise it sets exactly the first
matching entry's `approved` flag to the given boolean and persists; the
operation is idempotent. -/
theorem approve_spec (s : Shift) (vid : Nat) (b : Bool) :
    approveSvc none vid b = .error "Shift not found" ∧
    ((∀ r ∈ s.registeredVolunteers, r.userId ≠ vid) →
      approve s vid b = .error "Volunteer not found in main registrations") ∧
    (∀ (pre : List Registration) (r : Registration) (post : List Registration),
      s.registeredVolunteers = pre ++ r :: post → (∀ x ∈ pre, x.userId ≠ vid) →
      r.userId = vid →
      approve s vid b =
        .ok { s with registeredVolunteers := pre ++ { r with approved := b } :: post }) ∧
    (∀ s' : Shift, approve s vid b = .ok s' → approve s' vid b = .ok s') := by
  refine ⟨rfl, ?_, ?_, ?_⟩
  · intro hall
    exact approve_not_found hall
  · intro pre r post hdecomp hpre hr
    exact approve_found hdecomp hpre hr
  · intro s' h
    exact approve_idem h

/-- Witness for `approve_spec`: approving volunteer 9 on `shiftC9` flips
exactly that entry's `approved` flag to `true`. -/
theorem approve_spec_witness :
    approve shiftC9 9 true =
      .ok { shiftC9 with registeredVolunteers := [{ regC9 with approved := true }] } :=
  (approve_spec shiftC9 9 true).2.2.1 [] regC9 [] rfl (by simp) rfl

/-- Claim C10: the approve handler's query-parameter parsing defaults to
`true` when the parameter is absent, maps exactly the literal string
`"true"` to `true` (so `"True"`, `"1"`, `"yes"` all revoke), and the handler
sets the matched volunteer's `approved` flag to that boolean. -/
theorem controller_approve_query_param (s : Shift) (vid : Nat) (param : Option String) :
    approveQueryFlag none = true ∧
    (∀ v : String, approveQueryFlag (some v) = true ↔ v = "true") ∧
    (approveQueryFlag (some "True") = false ∧ approveQueryFlag (some "1") = false ∧
      approveQueryFlag (some "yes") = false) ∧
    (∀ (pre : List Registration) (r : Registration) (post : List Registration),
      s.registeredVolunteers = pre ++ r :: post → (∀ x ∈ pre, x.userId ≠ vid) →
      r.userId = vid →
      controllerApprove (some s) vid param =
        .ok { s with registeredVolunteers :=
                pre ++ { r with approved := approveQueryFlag param } :: post }) := by
  refine ⟨rfl, ?_, ⟨rfl, rfl, rfl⟩, ?_⟩
  · intro v
    simp [approveQueryFlag]
  · intro pre r post hdecomp hpre hr
    exact approve_found hdecomp hpre hr

/-- Witness for `controller_approve_query_param`: the query value "yes" is
not the literal "true", so the handler revokes volunteer 3's approval on
`shiftC10`. -/
theorem controller_approve_query_param_witness :
    controllerApprove (some shiftC10) 3 (some "yes") =
      .ok { shiftC10 with registeredVolunteers := [{ regC10 with approved := false }] } :=
  (controller_approve_query_param shiftC10 3 (some "yes")).2.2.2 [] regC10 [] rfl
    (by simp) rfl

/-- Claim C7: `statusIndicator` reports `total` = main-list length,
`approved` = number of approved main-list entries, `waitlisted` = waitlist
length, `required` = `requiredVolunteers`; `pendingIcon` is true iff some
main-list entry is unapproved; and the color is gray exactly on an empty
main list, else blue/green/orange according to the ordered decision. -/
theorem statusIndicator_spec (s : Shift) :
    (statusIndicator s).total = s.registeredVolunteers.length ∧
    (statusIndicator s).approved = s.registeredVolunteers.countP (fun r => r.approved) ∧
    (statusIndicator s).waitlisted = s.waitlistVolunteers.length ∧
    (statusIndicator s).required = s.requiredVolunteers ∧
    ((statusIndicator s).pendingIcon = true ↔
      ∃ r ∈ s.registeredVolunteers, r.approved = false) ∧
    ((statusIndicator s).color = "gray" ↔ s.registeredVolunteers.length = 0) ∧
    ((statusIndicator s).color = "blue" ↔
      s.registeredVolunteers.length ≠ 0 ∧
      s.requiredVolunteers ≤ s.registeredVolunteers.countP (fun r => r.approved) ∧
      0 < s.waitlistVolunteers.length) ∧
    ((statusIndicator s).color = "green" ↔
      s.registeredVolunteers.length ≠ 0 ∧
      s.requiredVolunteers ≤ s.registeredVolunteers.countP (fun r => r.approved) ∧
      s.waitlistVolunteers.length = 0) ∧
    ((statusIndicator s).color = "orange" ↔
      s.registeredVolunteers.length ≠ 0 ∧
      s.registeredVolunteers.countP (fun r => r.approved) < s.requiredVolunteers) := by
  have hcountP : s.registeredVolunteers.countP (fun r => r.approved) = approvedCount s := by
    simp [approvedCount, List.countP_eq_length_filter]
  refine ⟨rfl, hcountP.symm, rfl, rfl, ?_, ?_, ?_, ?_, ?_⟩
  · show (s.registeredVolunteers.any fun r => !r.approved) = true ↔ _
    simp [List.any_eq_true]
  · show indicatorColor s = "gray" ↔ _
    unfold indicatorColor
    split_ifs with h1 h2 h3
    · simp [h1]
    · exact ⟨fun hc => absurd hc (by decide), fun hl => absurd hl h1⟩
    · exact ⟨fun hc => absurd hc (by decide), fun hl => absurd hl h1⟩
    · exact ⟨fun hc => absurd hc (by decide), fun hl => absurd hl h1⟩
  · show indicatorColor s = "blue" ↔ _
    rw [hcountP]
    unfold indicatorColor
    split_ifs with h1 h2 h3
    · exact ⟨fun hc => absurd hc (by decide), fun hr => absurd h1 hr.1⟩
    · exact ⟨fun _ => ⟨h1, h2.1, h2.2⟩, fun _ => rfl⟩
    · exact ⟨fun hc => absurd hc (by decide), fun hr => absurd ⟨hr.2.1, hr.2.2⟩ h2⟩
    · exact ⟨fun hc => absurd hc (by decide), fun hr => absurd hr.2.1 h3⟩
  · show indicatorColor s = "green" ↔ _
    rw [hcountP]
    unfold indicatorColor
    split_ifs with h1 h2 h3
    · exact ⟨fun hc => absurd hc (by decide), fun hr => absurd h1 hr.1⟩
    · exact ⟨fun hc => absurd hc (by decide),
        fun hr => absurd hr.2.2 (by omega)⟩
    · have hwl : s.waitlistVolunteers.length = 0 := by
        by_contra hne
        exact h2 ⟨h3, Nat.pos_of_ne_zero hne⟩
      exact ⟨fun _ => ⟨h1, h3, hwl⟩, fun _ => rfl⟩
    · exact ⟨fun hc => absurd hc (by decide), fun hr => absurd hr.2.1 h3⟩
  · show indicatorColor s = "orange" ↔ _
    rw [hcountP]
    unfold indicatorColor
    split_ifs with h1 h2 h3
    · exact ⟨fun hc => absurd hc (by decide), fun hr => absurd h1 hr.1⟩
    · exact ⟨fun hc => absurd hc (by decide), fun hr => absurd hr.2 (by omega)⟩
    · exact ⟨fun hc => absurd hc (by decide), fun hr => absurd hr.2 (by omega)⟩
    · exact ⟨fun _ => ⟨h1, by omega⟩, fun _ => rfl⟩

/-- Claim C8: each engine operation — register, unregister, approve —
preserves the invariant that a user appears at most once in the main list,
at most once in the waitlist, and never in both, for the persisted shift
(unchanged on failure, the returned shift on success). -/
theorem engine_preserves_membership_invariant (s : Shift) (hInv : Inv s) :
    (∀ c : RegCall, Inv (persisted s (registerCall s c))) ∧
    (∀ u : Nat, Inv (persisted s (unregister s u))) ∧
    (∀ (vid : Nat) (b : Bool), Inv (persisted s (approve s vid b))) := by
  obtain ⟨hndM, hndW, hdis⟩ := hInv
  refine ⟨?_, ?_, ?_⟩
  · intro c
    cases h : registerCall s c with
    | error e => exact ⟨hndM, hndW, hdis⟩
    | ok s' =>
        rw [persisted_ok]
        obtain ⟨_, hmm, hmw, hcase⟩ := register_ok_cases h
        have hum : c.userId ∉ s.registeredVolunteers.map (fun r => r.userId) := by
          intro hmem
          have hx := (memMain_iff s c.userId).mpr hmem
          rw [hmm] at hx
          cases hx
        have huw : c.userId ∉ s.waitlistVolunteers.map (fun w => w.userId) := by
          intro hmem
          have hx := (memWait_iff s c.userId).mpr hmem
          rw [hmw] at hx
          cases hx
        rcases hcase with ⟨_, hs⟩ | ⟨_, hs⟩
        · subst hs
          refine ⟨?_, hndW, ?_⟩
          · show ((s.registeredVolunteers ++ [newMainReg c]).map (fun r => r.userId)).Nodup
            rw [List.map_append]
            simp [List.nodup_append, hndM, newMainReg, hum]
          · intro x hx
            show x ∉ s.waitlistVolunteers.map (fun w => w.userId)
            have hx' : x ∈ s.registeredVolunteers.map (fun r => r.userId) ∨ x = c.userId := by
              simpa [List.map_append, newMainReg] using hx
            rcases hx' with hx' | hx'
            · exact hdis x hx'
            · exact hx' ▸ huw
        · subst hs
          refine ⟨hndM, ?_, ?_⟩
          · show ((s.waitlistVolunteers ++ [newWaitEntry c]).map (fun w => w.userId)).Nodup
            rw [List.map_append]
            simp [List.nodup_append, hndW, newWaitEntry, huw]
          · intro x hx
            show x ∉ (s.waitlistVolunteers ++ [newWaitEntry c]).map (fun w => w.userId)
            rw [List.map_append]
            intro hmem
            rcases List.mem_append.mp hmem with hmem | hmem
            · exact hdis x hx hmem
            · have hxc : x = c.userId := by simpa [newWaitEntry] using hmem
              exact hum (hxc ▸ hx)
  · intro u
    by_cases hm : u ∈ s.registeredVolunteers.map (fun r => r.userId)
    · cases hwe : s.waitlistVolunteers with
      | nil =>
          rw [unregister_in_main_wait_empty hm hwe, persisted_ok]
          refine ⟨nodup_map_filter _ _ _ hndM, by simp, ?_⟩
          intro x _
          simp
      | cons w ws =>
          have hw : u ∉ s.waitlistVolunteers.map (fun v => v.userId) := hdis u hm
          have hne : 0 < s.waitlistVolunteers.length := by rw [hwe]; simp
          rw [unregister_in_main_wait_nonempty hndM hm hw hne, persisted_error]
          exact ⟨hndM, hndW, hdis⟩
    · by_cases hwm : u ∈ s.waitlistVolunteers.map (fun w => w.userId)
      · rw [unregister_wait_only hm hwm, persisted_ok]
        refine ⟨hndM, nodup_map_filter _ _ _ hndW, ?_⟩
        intro x hx hmem
        exact hdis x hx (mem_map_filter hmem)
      · rw [unregister_not_member hm hwm, persisted_error]
        exact ⟨hndM, hndW, hdis⟩
  · intro vid b
    cases h : approve s vid b with
    | error e => exact ⟨hndM, hndW, hdis⟩
    | ok s' =>
        rw [persisted_ok]
        obtain ⟨hs', _⟩ := approve_ok_inv h
        subst hs'
        refine ⟨?_, hndW, ?_⟩
        · show ((setApprovedFirst s.registeredVolunteers vid b).map (fun r => r.userId)).Nodup
          rw [setApprovedFirst_map_userId]
          exact hndM
        · show ∀ x ∈ (setApprovedFirst s.registeredVolunteers vid b).map (fun r => r.userId),
            x ∉ s.waitlistVolunteers.map (fun w => w.userId)
          rw [setApprovedFirst_map_userId]
          exact hdis

/-- Witness for `engine_preserves_membership_invariant`: unregistering user 1
from `shiftC8` leaves the persisted shift's membership invariant intact. -/
theorem engine_preserves_membership_invariant_witness :
    Inv (persisted shiftC8 (unregister shiftC8 1)) :=
  (engine_preserves_membership_invariant shiftC8
    ⟨by decide, by decide, by decide⟩).2.1 1

end PoliceShifts
